import Mathlib

/-!
# Verification of the gogl graph library core

A shallow embedding of the gogl repository's core components, together with
theorems settling the specification's claims about them.

Embedded components:
* the Bernoulli random-graph generator (`rand/bernoulli.go`): the candidate
  pair enumeration of `bernoulliEdgeCreator` / `bernoulliArcCreator`, the
  stable (materializing) and unstable generator states, `EachVertex`,
  `EachEdge`, `Size`, and the `BernoulliDistribution` constructor;
* the fluent builder (`builder.go`): the `GraphProperties` bitfield constants
  and every `GraphSpec` method;
* the null-graph sentinel (the `nullGraph` type).

Modelling conventions:
* Go machine integers are modelled as `Nat`/`Int` (all values reachable here
  are tiny, far from any word-size boundary); the `uint16` bitfield is a `Nat`
  manipulated with `|||` (Go `|`) and AND-with-16-bit-complement (Go `&^`).
* `float64` appears only in two places: the probability `ρ`, whose only uses
  in the embedded code are order comparisons and one multiplication, is
  modelled as `ℚ`; `math.NaN()` is modelled by a dedicated constructor of
  `GoFloat`.
* The stateful Bernoulli trial closure (`bTrial`, consuming a random stream)
  is modelled as an infinite Boolean stream `t : Nat → Bool` of trial
  outcomes plus an explicit cursor `c : Nat` threaded through each run; each
  call of `cmp(ρ)` reads `t c` and advances the cursor.
* Callback-driven enumeration (`VertexLambda` / `EdgeLambda` step functions
  returning a terminate flag) is modelled by computing the list of elements
  delivered to the step function, in delivery order.
-/

/-- Go `int` vertices as used by the Bernoulli generator (`0 .. n-1`;
loop counters start at 0 and only increase, so `Nat` is faithful). -/
abbrev Vertex := Nat

/-- `BaseEdge` from `edge.go`: vertex pair `(U, V)`. -/
structure BaseEdge where
  U : Vertex
  V : Vertex
deriving DecidableEq, Repr

/-- The candidate pairs scanned by `bernoulliEdgeCreator` (bernoulli.go
lines 158-172), in loop order: `for u in 0..<order, for v in u+1..<order`.
`List.range' (u+1) (order - (u+1))` is exactly `[u+1, ..., order-1]`. -/
def edgePairs (order : Nat) : List (Nat × Nat) :=
  (List.range order).flatMap fun u =>
    (List.range' (u + 1) (order - (u + 1))).map fun v => (u, v)

/-- The candidate pairs scanned by `bernoulliArcCreator` (bernoulli.go
lines 174-186), in loop order: `for u in 0..<order, for v in 0..<order`,
with the `u != v` guard (the Bernoulli trial is short-circuited away on
`u == v`, so only the guarded pairs consume a trial). -/
def arcPairs (order : Nat) : List (Nat × Nat) :=
  (List.range order).flatMap fun u =>
    ((List.range order).filter fun v => u != v).map fun v => (u, v)

/-- One full run of a bernoulli creator over its candidate-pair list:
for each pair a trial is consumed (`t c`, advancing the cursor); on success
the edge is delivered to the step function `f`, and the run stops as soon as
`f` returns `true`.  Returns (delivered edges, final cursor, terminated). -/
def runCreator (f : BaseEdge → Bool) (t : Nat → Bool) :
    List (Nat × Nat) → Nat → List BaseEdge × Nat × Bool
  | [], c => ([], c, false)
  | (u, v) :: rest, c =>
    if t c then
      if f ⟨u, v⟩ then ([⟨u, v⟩], c + 1, true)
      else (⟨u, v⟩ :: (runCreator f t rest (c + 1)).1, (runCreator f t rest (c + 1)).2)
    else runCreator f t rest (c + 1)

/-- Plain delivery of a list of elements to a step function, stopping as soon
as it returns `true` (the shape of `EachVertex` and of the stable graph's
replay loop).  Returns the delivered prefix. -/
def runSteps {α : Type} (f : α → Bool) : List α → List α
  | [] => []
  | x :: rest => if f x then [x] else x :: runSteps f rest

/-- `stableBernoulliGraph` (bernoulli.go lines 54-61).  The Go field
`list [][]struct{}` is a slice of rows; a row is `nil` until the first
generated edge with that source, and is then `make([]struct{}, order)`.
Since `struct{}` is a zero-size type, a non-nil row carries no information
beyond its length (always `order`): the store `list[u][v] = struct{}{}` does
not change the row.  The faithful content of `list` is therefore
"nil or allocated" per row, embedded as `Option (List Bool)`. -/
structure stableBernoulliGraph where
  order : Nat
  ρ : ℚ
  trial : Nat → Bool
  directed : Bool
  size : Nat
  list : Option (List Bool)

/-- Row allocation pattern produced by materializing the delivered edges:
row `u` is allocated iff some delivered edge has source `u`. -/
def rowsOf (order : Nat) (es : List BaseEdge) : List Bool :=
  (List.range order).map fun u => es.any fun e => e.U == u

/-- The pairs emitted by the replay loop (bernoulli.go lines 92-100):
`for u, adj := range g.list { for v := range adj { deliver (u, v) } }`.
An allocated row `adj` has length `order`, so ranging over it yields every
index `0 .. order-1`; a nil row yields nothing. -/
def replayPairs (order : Nat) (rows : List Bool) : List (Nat × Nat) :=
  (List.range rows.length).flatMap fun u =>
    if rows.getD u false then (List.range order).map fun v => (u, v) else []

/-- `stableBernoulliGraph.EachVertex` (bernoulli.go lines 63-70): delivers
`0, 1, ...` up to `order-1`, stopping early when `f` returns true. -/
def stableEachVertex (g : stableBernoulliGraph) (f : Nat → Bool) : List Nat :=
  runSteps f (List.range g.order)

/-- `stableBernoulliGraph.EachEdge` (bernoulli.go lines 72-102).  First call
(`list == nil`): allocate `list`, run the creator with the wrapping lambda
`ff` that records each delivered edge (allocating its source row and
incrementing `size`) before forwarding to `f`.  Subsequent calls: replay
from `list`.  Returns (updated graph, delivered edges, final trial cursor). -/
def stableEachEdge (g : stableBernoulliGraph) (f : BaseEdge → Bool) (c : Nat) :
    stableBernoulliGraph × List BaseEdge × Nat :=
  match g.list with
  | none =>
    let cands := if g.directed then arcPairs g.order else edgePairs g.order
    let r := runCreator f g.trial cands c
    ({ g with size := g.size + r.1.length, list := some (rowsOf g.order r.1) },
      r.1, r.2.1)
  | some rows =>
    (g, runSteps f ((replayPairs g.order rows).map fun p => ⟨p.1, p.2⟩), c)

/-- `stableBernoulliGraph.Size` (bernoulli.go lines 108-113): run `EachEdge`
with a never-terminating step, then return the `size` field.
Returns (updated graph, reported size, final trial cursor). -/
def stableSize (g : stableBernoulliGraph) (c : Nat) :
    stableBernoulliGraph × Nat × Nat :=
  let r := stableEachEdge g (fun _ => false) c
  (r.1, r.1.size, r.2.2)

/-- `unstableBernoulliGraph` (bernoulli.go lines 115-120). -/
structure unstableBernoulliGraph where
  order : Nat
  ρ : ℚ
  trial : Nat → Bool
  directed : Bool

/-- `unstableBernoulliGraph.EachVertex` (bernoulli.go lines 122-129). -/
def unstableEachVertex (g : unstableBernoulliGraph) (f : Nat → Bool) : List Nat :=
  runSteps f (List.range g.order)

/-- `unstableBernoulliGraph.EachEdge` (bernoulli.go lines 131-137): rerun the
creator on every call.  Returns (delivered edges, final trial cursor). -/
def unstableEachEdge (g : unstableBernoulliGraph) (f : BaseEdge → Bool)
    (c : Nat) : List BaseEdge × Nat :=
  let r := runCreator f g.trial
    (if g.directed then arcPairs g.order else edgePairs g.order) c
  (r.1, r.2.1)

/-- Go's float→int conversion truncates toward zero: for `q = num/den`
(`den > 0`) that is the truncating division of `num` by `den`. -/
def goTrunc (q : ℚ) : Int := q.num.tdiv q.den

/-- The exact rational product `(cs : ℚ) * ρ`, written through `mkRat` so
that it evaluates by kernel reduction; `ratScale_eq` below shows it is the
ordinary product. -/
def ratScale (cs : Int) (ρ : ℚ) : ℚ := mkRat (cs * ρ.num) ρ.den

theorem ratScale_eq (cs : Int) (ρ : ℚ) : ratScale cs ρ = (cs : ℚ) * ρ := by
  rw [ratScale, Rat.mkRat_eq_div]
  push_cast
  rw [mul_div_assoc, Rat.num_div_den]

/-- `unstableBernoulliGraph.Size` (bernoulli.go lines 147-156):
`cs := n*(n-1)`, halved (integer division) when undirected, then
`int(float64(cs) * ρ)`.  The float multiplication is modelled as exact
rational multiplication. -/
def unstableSize (g : unstableBernoulliGraph) : Int :=
  let cs : Int := (g.order : Int) * ((g.order : Int) - 1)
  let cs := if !g.directed then cs / 2 else cs
  goTrunc (ratScale cs g.ρ)

/-- `gogl.GraphEnumerator`, as far as the Bernoulli generators inhabit it. -/
inductive GraphEnumerator where
  | stable : stableBernoulliGraph → GraphEnumerator
  | unstable : unstableBernoulliGraph → GraphEnumerator

/-- `BernoulliDistribution` (bernoulli.go lines 27-50).  The Go `panic` on an
out-of-range `ρ` is modelled as `Except.error`; the random source (explicit
`src` or the global default) is abstracted into the stream `t` of successive
Bernoulli-trial outcomes (`Float64() < ρ`), which is all the returned
generator ever reads from it. -/
def BernoulliDistribution (n : Nat) (ρ : ℚ) (directed stable : Bool)
    (t : Nat → Bool) : Except String GraphEnumerator :=
  if ρ < 0 ∨ 1 ≤ ρ then
    .error "must be in the range [0.0,1.0)."
  else if stable then
    .ok (.stable ⟨n, ρ, t, directed, 0, none⟩)
  else
    .ok (.unstable ⟨n, ρ, t, directed⟩)

/-- Whether a modelled call aborted (panicked). -/
def isPanic (r : Except String GraphEnumerator) : Bool :=
  match r with
  | .error _ => true
  | .ok _ => false

/-! ## The builder (`builder.go`) -/

/-- `GraphProperties` bitfield constants (builder.go lines 8-30),
with their concrete `1 << iota` values. -/
def G_UNDIRECTED : Nat := 1
def G_DIRECTED : Nat := 2
def G_BASIC : Nat := 4
def G_LABELED : Nat := 8
def G_WEIGHTED : Nat := 16
def G_DATA : Nat := 32
def G_SIMPLE : Nat := 64
def G_LOOPS : Nat := 128
def G_PARALLEL : Nat := 256
def G_IMMUTABLE : Nat := 512
def G_MUTABLE : Nat := 1024
/-- `G_PERSISTENT = 1<<iota | G_MUTABLE` — both bit 11 and the mutable bit. -/
def G_PERSISTENT : Nat := 2048 ||| G_MUTABLE

/-- `GraphSpec` (builder.go lines 42-45).  `Source` is a `GraphSource`
interface value; only nil-versus-set matters to the embedded claims, so it is
modelled by an `Option`. -/
structure GraphSpec where
  Props : Nat
  Source : Option GraphEnumerator

/-- `Spec()` (builder.go lines 49-52): the default spec. -/
def Spec : GraphSpec :=
  { Props := G_UNDIRECTED ||| G_SIMPLE ||| G_BASIC ||| G_MUTABLE, Source := none }

/-- Go `a &^ b` (AND NOT) on `uint16` operands, used by every axis-clearing
builder method: AND with the 16-bit complement of `b`.  `GraphProperties` is
a `uint16`, so every reachable operand is below `2^16`. -/
def andNot (a b : Nat) : Nat := a &&& (b ^^^ 65535)

/-- `Using` (builder.go lines 59-62). -/
def GraphSpec.Using (b : GraphSpec) (g : GraphEnumerator) : GraphSpec :=
  { b with Source := some g }

/-- `Undirected` (builder.go lines 65-69): clear `G_DIRECTED`, set
`G_UNDIRECTED`. -/
def GraphSpec.Undirected (b : GraphSpec) : GraphSpec :=
  { b with Props := andNot b.Props G_DIRECTED ||| G_UNDIRECTED }

/-- `Directed` (builder.go lines 72-76). -/
def GraphSpec.Directed (b : GraphSpec) : GraphSpec :=
  { b with Props := andNot b.Props G_UNDIRECTED ||| G_DIRECTED }

/-- `Basic` (builder.go lines 79-83): clear all rich-edge flags, set
`G_BASIC`. -/
def GraphSpec.Basic (b : GraphSpec) : GraphSpec :=
  { b with Props := andNot b.Props (G_LABELED ||| G_WEIGHTED ||| G_DATA) ||| G_BASIC }

/-- `Labeled` (builder.go lines 86-90): clears only `G_BASIC`. -/
def GraphSpec.Labeled (b : GraphSpec) : GraphSpec :=
  { b with Props := andNot b.Props G_BASIC ||| G_LABELED }

/-- `Weighted` (builder.go lines 93-97): clears only `G_BASIC`. -/
def GraphSpec.Weighted (b : GraphSpec) : GraphSpec :=
  { b with Props := andNot b.Props G_BASIC ||| G_WEIGHTED }

/-- `DataEdges` (builder.go lines 100-104): clears only `G_BASIC`. -/
def GraphSpec.DataEdges (b : GraphSpec) : GraphSpec :=
  { b with Props := andNot b.Props G_BASIC ||| G_DATA }

/-- `SimpleGraph` (builder.go lines 107-111). -/
def GraphSpec.SimpleGraph (b : GraphSpec) : GraphSpec :=
  { b with Props := andNot b.Props (G_LOOPS ||| G_PARALLEL) ||| G_SIMPLE }

/-- `MultiGraph` (builder.go lines 114-118). -/
def GraphSpec.MultiGraph (b : GraphSpec) : GraphSpec :=
  { b with Props := andNot b.Props (G_SIMPLE ||| G_LOOPS) ||| G_PARALLEL }

/-- `PseudoGraph` (builder.go lines 121-125). -/
def GraphSpec.PseudoGraph (b : GraphSpec) : GraphSpec :=
  { b with Props := andNot b.Props G_SIMPLE ||| (G_LOOPS ||| G_PARALLEL) }

/-- `Parallel` (builder.go lines 128-132). -/
def GraphSpec.Parallel (b : GraphSpec) : GraphSpec :=
  { b with Props := andNot b.Props G_SIMPLE ||| G_PARALLEL }

/-- `Loop` (builder.go lines 135-139). -/
def GraphSpec.Loop (b : GraphSpec) : GraphSpec :=
  { b with Props := andNot b.Props G_SIMPLE ||| G_LOOPS }

/-- `Mutable` (builder.go lines 142-146). -/
def GraphSpec.Mutable (b : GraphSpec) : GraphSpec :=
  { b with Props := andNot b.Props (G_IMMUTABLE ||| G_PERSISTENT) ||| G_MUTABLE }

/-- `Immutable` (builder.go lines 149-153). -/
def GraphSpec.Immutable (b : GraphSpec) : GraphSpec :=
  { b with Props := andNot b.Props (G_PERSISTENT ||| G_MUTABLE) ||| G_IMMUTABLE }

/-- Whether a property flag is active in a bitfield (`Props & flag != 0`,
the reading both the spec's "active" notion and gogl's own consumers use). -/
def hasProp (props flag : Nat) : Bool := props &&& flag != 0

/-! ## The null graph (`nullgraph.go`, embedded from the repository source) -/

/-- A minimal model of Go `float64` for the code embedded here: the only
float the null graph produces is `math.NaN()`. -/
inductive GoFloat where
  | nan : GoFloat
  | val : ℚ → GoFloat
deriving DecidableEq

/-- Go `type nullGraph bool` — the sentinel's carrier type. -/
def nullGraph := Bool

/-- `const NullGraph = nullGraph(false)`. -/
def NullGraph : nullGraph := false

/-- `Vertices` delivers nothing: the callback is never invoked. -/
def nullGraph.Vertices (_ : nullGraph) {V : Type} (_ : V → Bool) : List V := []

/-- `Edges` delivers nothing. -/
def nullGraph.Edges (_ : nullGraph) {E : Type} (_ : E → Bool) : List E := []

/-- `Arcs` delivers nothing. -/
def nullGraph.Arcs (_ : nullGraph) {E : Type} (_ : E → Bool) : List E := []

/-- `IncidentTo` delivers nothing, whatever the vertex. -/
def nullGraph.IncidentTo (_ : nullGraph) {V E : Type} (_ : V) (_ : E → Bool) :
    List E := []

/-- `ArcsFrom` delivers nothing. -/
def nullGraph.ArcsFrom (_ : nullGraph) {V E : Type} (_ : V) (_ : E → Bool) :
    List E := []

/-- `ArcsTo` delivers nothing. -/
def nullGraph.ArcsTo (_ : nullGraph) {V E : Type} (_ : V) (_ : E → Bool) :
    List E := []

/-- `PredecessorsOf` delivers nothing. -/
def nullGraph.PredecessorsOf (_ : nullGraph) {V : Type} (_ : V) (_ : V → Bool) :
    List V := []

/-- `SuccessorsOf` delivers nothing. -/
def nullGraph.SuccessorsOf (_ : nullGraph) {V : Type} (_ : V) (_ : V → Bool) :
    List V := []

/-- `AdjacentTo` delivers nothing. -/
def nullGraph.AdjacentTo (_ : nullGraph) {V : Type} (_ : V) (_ : V → Bool) :
    List V := []

/-- `HasVertex` is constantly false. -/
def nullGraph.HasVertex (_ : nullGraph) {V : Type} (_ : V) : Bool := false

/-- `InDegreeOf` returns `(0, false)`: degree 0, vertex not found. -/
def nullGraph.InDegreeOf (_ : nullGraph) {V : Type} (_ : V) : Int × Bool :=
  (0, false)

/-- `OutDegreeOf` returns `(0, false)`. -/
def nullGraph.OutDegreeOf (_ : nullGraph) {V : Type} (_ : V) : Int × Bool :=
  (0, false)

/-- `DegreeOf` returns `(0, false)`. -/
def nullGraph.DegreeOf (_ : nullGraph) {V : Type} (_ : V) : Int × Bool :=
  (0, false)

/-- `HasEdge` is constantly false. -/
def nullGraph.HasEdge (_ : nullGraph) {E : Type} (_ : E) : Bool := false

/-- `HasArc` is constantly false. -/
def nullGraph.HasArc (_ : nullGraph) {E : Type} (_ : E) : Bool := false

/-- `HasWeightedEdge` is constantly false. -/
def nullGraph.HasWeightedEdge (_ : nullGraph) {E : Type} (_ : E) : Bool := false

/-- `HasLabeledEdge` is constantly false. -/
def nullGraph.HasLabeledEdge (_ : nullGraph) {E : Type} (_ : E) : Bool := false

/-- `HasDataEdge` is constantly false. -/
def nullGraph.HasDataEdge (_ : nullGraph) {E : Type} (_ : E) : Bool := false

/-- `Density` returns `math.NaN()`. -/
def nullGraph.Density (_ : nullGraph) : GoFloat := .nan

/-- `Transpose` returns the receiver itself. -/
def nullGraph.Transpose (g : nullGraph) : nullGraph := g

/-! ## Supporting lemmas -/

theorem runSteps_never {α : Type} (l : List α) :
    runSteps (fun _ => false) l = l := by
  induction l with
  | nil => rfl
  | cons x rest ih => simp [runSteps, ih]

theorem runSteps_sublist {α : Type} (f : α → Bool) (l : List α) :
    (runSteps f l).Sublist l := by
  induction l with
  | nil => simp [runSteps]
  | cons x rest ih =>
    rw [runSteps]
    by_cases h : f x
    · rw [if_pos h]
      exact (List.nil_sublist rest).cons₂ x
    · rw [if_neg h]
      exact ih.cons₂ x

theorem runSteps_dropLast {α : Type} (f : α → Bool) (l : List α) :
    ∀ x ∈ (runSteps f l).dropLast, f x = false := by
  induction l with
  | nil => simp [runSteps]
  | cons a rest ih =>
    intro x hx
    rw [runSteps] at hx
    by_cases h : f a
    · rw [if_pos h] at hx
      simp at hx
    · rw [if_neg h] at hx
      cases hq : runSteps f rest with
      | nil => rw [hq] at hx; simp at hx
      | cons y ys =>
        rw [hq, List.dropLast_cons_of_ne_nil (by simp)] at hx
        rcases List.mem_cons.1 hx with rfl | hx
        · simpa using h
        · exact ih x (hq ▸ hx)

theorem runCreator_pairs_sublist (f : BaseEdge → Bool) (t : Nat → Bool) :
    ∀ (l : List (Nat × Nat)) (c : Nat),
      ((runCreator f t l c).1.map fun e => (e.U, e.V)).Sublist l
  | [], _ => by simp [runCreator]
  | (u, v) :: rest, c => by
    rw [runCreator]
    by_cases h : t c
    · rw [if_pos h]
      by_cases hf : f ⟨u, v⟩
      · rw [if_pos hf]
        exact (List.nil_sublist rest).cons₂ (u, v)
      · rw [if_neg hf]
        simpa using (runCreator_pairs_sublist f t rest (c + 1)).cons₂ (u, v)
    · rw [if_neg h]
      exact (runCreator_pairs_sublist f t rest (c + 1)).cons (u, v)

theorem runCreator_mem (f : BaseEdge → Bool) (t : Nat → Bool)
    (l : List (Nat × Nat)) (c : Nat) {e : BaseEdge}
    (he : e ∈ (runCreator f t l c).1) : (e.U, e.V) ∈ l :=
  (runCreator_pairs_sublist f t l c).subset (List.mem_map_of_mem _ he)

theorem runCreator_nodup (f : BaseEdge → Bool) (t : Nat → Bool)
    (l : List (Nat × Nat)) (c : Nat) (hl : l.Nodup) :
    (runCreator f t l c).1.Nodup :=
  List.Nodup.of_map _ ((runCreator_pairs_sublist f t l c).nodup hl)

theorem runCreator_dropLast (f : BaseEdge → Bool) (t : Nat → Bool) :
    ∀ (l : List (Nat × Nat)) (c : Nat),
      ∀ e ∈ (runCreator f t l c).1.dropLast, f e = false
  | [], c => by simp [runCreator]
  | (u, v) :: rest, c => by
    intro e he
    rw [runCreator] at he
    by_cases h : t c
    · rw [if_pos h] at he
      by_cases hf : f ⟨u, v⟩
      · rw [if_pos hf] at he
        simp at he
      · rw [if_neg hf] at he
        cases hq : (runCreator f t rest (c + 1)).1 with
        | nil => rw [hq] at he; simp at he
        | cons y ys =>
          rw [hq, List.dropLast_cons_of_ne_nil (by simp)] at he
          rcases List.mem_cons.1 he with rfl | he
          · simpa using hf
          · exact runCreator_dropLast f t rest (c + 1) e (hq ▸ he)
    · rw [if_neg h] at he
      exact runCreator_dropLast f t rest (c + 1) e he

theorem runCreator_never_cursor (t : Nat → Bool) :
    ∀ (l : List (Nat × Nat)) (c : Nat),
      (runCreator (fun _ => false) t l c).2.1 = c + l.length
  | [], c => by simp [runCreator]
  | (u, v) :: rest, c => by
    rw [runCreator]
    by_cases h : t c
    · rw [if_pos h, if_neg (by simp)]
      rw [runCreator_never_cursor t rest (c + 1)]
      simp; omega
    · rw [if_neg h, runCreator_never_cursor t rest (c + 1)]
      simp; omega

/-- Generic no-duplicates principle for the pair lists in this file:
a flat map over distinct source indices, where every pair produced for
source `u` has first component `u` and each block is itself duplicate-free. -/
theorem nodup_flatMap_fst {β : Type} {l : List Nat} {g : Nat → List (Nat × β)}
    (hl : l.Nodup) (hfst : ∀ u p, p ∈ g u → p.1 = u)
    (hg : ∀ u, (g u).Nodup) : (l.flatMap g).Nodup := by
  rw [List.nodup_flatMap]
  refine ⟨fun u _ => hg u, ?_⟩
  refine hl.imp ?_
  intro a b hab p hpa hpb
  exact hab ((hfst a p hpa).symm.trans (hfst b p hpb))

theorem mem_edgePairs {order u v : Nat} :
    (u, v) ∈ edgePairs order ↔ u < v ∧ v < order := by
  simp only [edgePairs, List.mem_flatMap, List.mem_map, List.mem_range,
    List.mem_range'_1, Prod.mk.injEq]
  constructor
  · rintro ⟨a, ha, b, hb, rfl, rfl⟩
    omega
  · intro h
    exact ⟨u, by omega, v, by omega, rfl, rfl⟩

theorem nodup_edgePairs (order : Nat) : (edgePairs order).Nodup := by
  refine nodup_flatMap_fst (List.nodup_range order) (fun u p hp => ?_) (fun u => ?_)
  · rcases List.mem_map.1 hp with ⟨v, _, rfl⟩
    rfl
  · exact (List.nodup_range' _ _).map fun a b h => congrArg Prod.snd h

theorem mem_arcPairs {order u v : Nat} :
    (u, v) ∈ arcPairs order ↔ u ≠ v ∧ u < order ∧ v < order := by
  simp only [arcPairs, List.mem_flatMap, List.mem_map, List.mem_filter,
    List.mem_range, bne_iff_ne, ne_eq, Prod.mk.injEq]
  constructor
  · rintro ⟨a, ha, b, ⟨hb, hne⟩, rfl, rfl⟩
    exact ⟨fun h => hne h, ha, hb⟩
  · rintro ⟨hne, hu, hv⟩
    exact ⟨u, hu, v, ⟨hv, fun h => hne h⟩, rfl, rfl⟩

theorem nodup_arcPairs (order : Nat) : (arcPairs order).Nodup := by
  refine nodup_flatMap_fst (List.nodup_range order) (fun u p hp => ?_) (fun u => ?_)
  · rcases List.mem_map.1 hp with ⟨v, _, rfl⟩
    rfl
  · exact ((List.nodup_range order).filter _).map fun a b h => congrArg Prod.snd h

theorem nodup_replayPairs (order : Nat) (rows : List Bool) :
    (replayPairs order rows).Nodup := by
  refine nodup_flatMap_fst (List.nodup_range _) (fun u p hp => ?_) (fun u => ?_)
  · by_cases h : rows.getD u false
    · rw [if_pos h] at hp
      rcases List.mem_map.1 hp with ⟨v, _, rfl⟩
      rfl
    · rw [if_neg h] at hp
      simp at hp
  · by_cases h : rows.getD u false
    · rw [if_pos h]
      exact (List.nodup_range order).map fun a b hab => congrArg Prod.snd hab
    · rw [if_neg h]
      exact List.nodup_nil

theorem hasProp_two_pow (p k : Nat) : hasProp p (2 ^ k) = p.testBit k := by
  rw [hasProp, Nat.and_two_pow]
  cases h : p.testBit k <;> simp [h, Nat.pos_iff_ne_zero.1 (Nat.two_pow_pos k)]

theorem hasProp_undirected (p : Nat) : hasProp p G_UNDIRECTED = p.testBit 0 :=
  hasProp_two_pow p 0

theorem hasProp_directed (p : Nat) : hasProp p G_DIRECTED = p.testBit 1 :=
  hasProp_two_pow p 1

theorem hasProp_basic (p : Nat) : hasProp p G_BASIC = p.testBit 2 :=
  hasProp_two_pow p 2

theorem hasProp_labeled (p : Nat) : hasProp p G_LABELED = p.testBit 3 :=
  hasProp_two_pow p 3

theorem hasProp_weighted (p : Nat) : hasProp p G_WEIGHTED = p.testBit 4 :=
  hasProp_two_pow p 4

theorem hasProp_data (p : Nat) : hasProp p G_DATA = p.testBit 5 :=
  hasProp_two_pow p 5

theorem hasProp_simple (p : Nat) : hasProp p G_SIMPLE = p.testBit 6 :=
  hasProp_two_pow p 6

theorem hasProp_loops (p : Nat) : hasProp p G_LOOPS = p.testBit 7 :=
  hasProp_two_pow p 7

theorem hasProp_parallel (p : Nat) : hasProp p G_PARALLEL = p.testBit 8 :=
  hasProp_two_pow p 8

theorem hasProp_immutable (p : Nat) : hasProp p G_IMMUTABLE = p.testBit 9 :=
  hasProp_two_pow p 9

theorem hasProp_mutable (p : Nat) : hasProp p G_MUTABLE = p.testBit 10 :=
  hasProp_two_pow p 10

/-! ## Claim theorems -/

/-- C6: for the null graph sentinel, every enumeration method invokes its
callback zero times for every argument; every membership test returns false
for every argument; every degree query returns `(0, not-found)` for every
vertex; `Density()` is NaN; and `Transpose()` returns the null graph
itself. -/
theorem null_graph_trivial :
    (∀ (V : Type) (f : V → Bool), NullGraph.Vertices f = []) ∧
    (∀ (E : Type) (f : E → Bool), NullGraph.Edges f = []) ∧
    (∀ (E : Type) (f : E → Bool), NullGraph.Arcs f = []) ∧
    (∀ (V E : Type) (v : V) (f : E → Bool), NullGraph.IncidentTo v f = []) ∧
    (∀ (V E : Type) (v : V) (f : E → Bool), NullGraph.ArcsFrom v f = []) ∧
    (∀ (V E : Type) (v : V) (f : E → Bool), NullGraph.ArcsTo v f = []) ∧
    (∀ (V : Type) (v : V) (f : V → Bool), NullGraph.PredecessorsOf v f = []) ∧
    (∀ (V : Type) (v : V) (f : V → Bool), NullGraph.SuccessorsOf v f = []) ∧
    (∀ (V : Type) (v : V) (f : V → Bool), NullGraph.AdjacentTo v f = []) ∧
    (∀ (V : Type) (v : V), NullGraph.HasVertex v = false) ∧
    (∀ (E : Type) (e : E), NullGraph.HasEdge e = false) ∧
    (∀ (E : Type) (e : E), NullGraph.HasArc e = false) ∧
    (∀ (E : Type) (e : E), NullGraph.HasWeightedEdge e = false) ∧
    (∀ (E : Type) (e : E), NullGraph.HasLabeledEdge e = false) ∧
    (∀ (E : Type) (e : E), NullGraph.HasDataEdge e = false) ∧
    (∀ (V : Type) (v : V), NullGraph.DegreeOf v = (0, false)) ∧
    (∀ (V : Type) (v : V), NullGraph.InDegreeOf v = (0, false)) ∧
    (∀ (V : Type) (v : V), NullGraph.OutDegreeOf v = (0, false)) ∧
    NullGraph.Density = GoFloat.nan ∧
    NullGraph.Transpose = NullGraph :=
  ⟨fun _ _ => rfl, fun _ _ => rfl, fun _ _ => rfl, fun _ _ _ _ => rfl,
    fun _ _ _ _ => rfl, fun _ _ _ _ => rfl, fun _ _ _ => rfl, fun _ _ _ => rfl,
    fun _ _ _ => rfl, fun _ _ => rfl, fun _ _ => rfl, fun _ _ => rfl,
    fun _ _ => rfl, fun _ _ => rfl, fun _ _ => rfl, fun _ _ => rfl,
    fun _ _ => rfl, fun _ _ => rfl, rfl, rfl⟩

/-- C8: the default spec returned by `Spec()` has exactly the flags
undirected, simple, basic and mutable active (bits 0, 6, 2, 10; all other
property bits, including the persistent-only bit 11, are clear) and no
source set. -/
theorem default_spec_flags :
    Spec.Props = (G_UNDIRECTED ||| G_SIMPLE ||| G_BASIC ||| G_MUTABLE) ∧
    Spec.Source = none ∧
    hasProp Spec.Props G_UNDIRECTED = true ∧
    hasProp Spec.Props G_SIMPLE = true ∧
    hasProp Spec.Props G_BASIC = true ∧
    hasProp Spec.Props G_MUTABLE = true ∧
    hasProp Spec.Props G_DIRECTED = false ∧
    hasProp Spec.Props G_LABELED = false ∧
    hasProp Spec.Props G_WEIGHTED = false ∧
    hasProp Spec.Props G_DATA = false ∧
    hasProp Spec.Props G_LOOPS = false ∧
    hasProp Spec.Props G_PARALLEL = false ∧
    hasProp Spec.Props G_IMMUTABLE = false ∧
    Spec.Props.testBit 11 = false :=
  ⟨by decide, rfl, by decide, by decide, by decide, by decide, by decide,
    by decide, by decide, by decide, by decide, by decide, by decide, by decide⟩

/-- C3: `BernoulliDistribution` panics exactly when `ρ < 0` or `ρ ≥ 1`
(regardless of order, directedness, stability and random source); in
particular it panics at `ρ = 1` and `ρ = -0.1`, and returns a generator
without error exactly when `0 ≤ ρ < 1`. -/
theorem bernoulli_rho_guard (n : Nat) (ρ : ℚ) (directed stbl : Bool)
    (t : Nat → Bool) :
    (isPanic (BernoulliDistribution n ρ directed stbl t) = true ↔
      (ρ < 0 ∨ 1 ≤ ρ)) ∧
    (isPanic (BernoulliDistribution n ρ directed stbl t) = false ↔
      (0 ≤ ρ ∧ ρ < 1)) ∧
    isPanic (BernoulliDistribution n 1 directed stbl t) = true ∧
    isPanic (BernoulliDistribution n (mkRat (-1) 10) directed stbl t) = true := by
  have key : ∀ ρ' : ℚ,
      isPanic (BernoulliDistribution n ρ' directed stbl t) = true ↔
        (ρ' < 0 ∨ 1 ≤ ρ') := by
    intro ρ'
    by_cases h : ρ' < 0 ∨ 1 ≤ ρ'
    · simp [BernoulliDistribution, isPanic, h]
    · rw [BernoulliDistribution, if_neg h]
      cases stbl <;> simp [isPanic, h]
  refine ⟨key ρ, ?_, (key 1).2 (Or.inr le_rfl), (key (mkRat (-1) 10)).2 (Or.inl (by decide))⟩
  rw [← Bool.not_eq_true, key ρ]
  push_neg
  exact Iff.rfl

/-- C1 (exhibiting the code bug): for the stable generator with `n = 2`,
undirected, and a trial stream that always succeeds, the first `EachEdge`
pass (run to completion) delivers exactly the generated edge `(0,1)`, but
the second `EachEdge` pass — the replay — delivers `(0,0)` and `(0,1)`:
a loop that was never generated appears, because ranging over a non-nil
`[]struct{}` row of length `n` yields every index.  The replayed edge set
therefore differs from the materialized one, contradicting both the claim
and the generator's own doc comment. -/
theorem stable_replay_diverges :
    (stableEachEdge ⟨2, mkRat 1 2, fun _ => true, false, 0, none⟩
        (fun _ => false) 0).2.1 = [⟨0, 1⟩] ∧
    (stableEachEdge (stableEachEdge ⟨2, mkRat 1 2, fun _ => true, false, 0, none⟩
        (fun _ => false) 0).1 (fun _ => false) 0).2.1 = [⟨0, 0⟩, ⟨0, 1⟩] ∧
    (⟨0, 0⟩ : BaseEdge) ∈ (stableEachEdge
        (stableEachEdge ⟨2, mkRat 1 2, fun _ => true, false, 0, none⟩
          (fun _ => false) 0).1 (fun _ => false) 0).2.1 ∧
    (⟨0, 0⟩ : BaseEdge) ∉ (stableEachEdge
        ⟨2, mkRat 1 2, fun _ => true, false, 0, none⟩ (fun _ => false) 0).2.1 := by
  decide

/-- C5 counterexample: for the unstable generator with `n = 3`, `ρ = 1/2`,
undirected, `Size()` returns 1, not the expected count
`C(3,2)·ρ = 3/2`. -/
theorem unstable_size_not_expected :
    unstableSize ⟨3, mkRat 1 2, fun _ => true, false⟩ = 1 ∧
    ((unstableSize ⟨3, mkRat 1 2, fun _ => true, false⟩ : Int) : ℚ) ≠
      (Nat.choose 3 2 : ℚ) * mkRat 1 2 := by
  have h1 : unstableSize ⟨3, mkRat 1 2, fun _ => true, false⟩ = 1 := by decide
  refine ⟨h1, ?_⟩
  rw [h1]
  have h2 : (mkRat 1 2 : ℚ) = 1 / 2 := by
    rw [Rat.mkRat_eq_div]
    norm_num
  rw [h2]
  norm_num

/-- C7 counterexample: `Weighted()` and `Labeled()` are two builder methods
of the edge-richness axis (of which exactly one value is supposed to be
active), yet after `Spec().Weighted().Labeled()` both `G_WEIGHTED` and
`G_LABELED` are active — the first value is not cleared by the second. -/
theorem builder_richness_accumulates :
    hasProp (Spec.Weighted.Labeled).Props G_WEIGHTED = true ∧
    hasProp (Spec.Weighted.Labeled).Props G_LABELED = true := by
  decide

/-- C5 amended: for the unstable generator, `Size()` returns the expected
count truncated toward zero to an integer — `⌊C(n,2)·ρ⌋` undirected,
`⌊n·(n-1)·ρ⌋` directed (with exact rational arithmetic for the product) —
computed from the declared parameters alone, independent of any
traversal. -/
theorem unstable_size_trunc (n : Nat) (ρ : ℚ) (t : Nat → Bool) (d : Bool) :
    unstableSize ⟨n, ρ, t, d⟩ =
      goTrunc ((if d then ((n * (n - 1) : Nat) : ℚ) else (Nat.choose n 2 : ℚ)) * ρ) := by
  have ha : ((n : Int) * ((n : Int) - 1)) = ((n * (n - 1) : Nat) : Int) := by
    cases n with
    | zero => simp
    | succ m =>
      push_cast [Nat.succ_sub_one]
      ring
  have ha2 : ((n : Int) * ((n : Int) - 1)) / 2 = (Nat.choose n 2 : Int) := by
    rw [ha, Nat.choose_two_right]
    exact (Int.natCast_div _ 2).symm
  cases d
  · simp only [unstableSize, Bool.not_false, if_true, if_false, ratScale_eq]
    rw [ha2]
    norm_cast
  · simp only [unstableSize, Bool.not_true, if_true, if_false, ratScale_eq]
    rw [ha]
    norm_cast

/-- C7 amended: after two builder methods of one axis in sequence, the
second value is active; the first is cleared whenever the second method's
Go implementation clears it — always, on the directedness and mutability
axes and for pairs involving `Basic` (richness) or
`SimpleGraph`/`MultiGraph` (multiplicity) — but among the non-basic
richness values (`Labeled`/`Weighted`/`DataEdges`) and between `Loop` and
`Parallel` the values accumulate: the second is set and the first stays
active. -/
theorem builder_axis_last_write (b : GraphSpec) :
    (hasProp b.Directed.Undirected.Props G_UNDIRECTED = true ∧
     hasProp b.Directed.Undirected.Props G_DIRECTED = false) ∧
    (hasProp b.Undirected.Directed.Props G_DIRECTED = true ∧
     hasProp b.Undirected.Directed.Props G_UNDIRECTED = false) ∧
    (hasProp b.Mutable.Immutable.Props G_IMMUTABLE = true ∧
     hasProp b.Mutable.Immutable.Props G_MUTABLE = false) ∧
    (hasProp b.Immutable.Mutable.Props G_MUTABLE = true ∧
     hasProp b.Immutable.Mutable.Props G_IMMUTABLE = false) ∧
    (hasProp b.Basic.Labeled.Props G_LABELED = true ∧
     hasProp b.Basic.Labeled.Props G_BASIC = false ∧
     hasProp b.Basic.Labeled.Props G_WEIGHTED = false ∧
     hasProp b.Basic.Labeled.Props G_DATA = false) ∧
    (hasProp b.Labeled.Basic.Props G_BASIC = true ∧
     hasProp b.Labeled.Basic.Props G_LABELED = false ∧
     hasProp b.Labeled.Basic.Props G_WEIGHTED = false ∧
     hasProp b.Labeled.Basic.Props G_DATA = false) ∧
    (hasProp b.SimpleGraph.MultiGraph.Props G_PARALLEL = true ∧
     hasProp b.SimpleGraph.MultiGraph.Props G_SIMPLE = false ∧
     hasProp b.SimpleGraph.MultiGraph.Props G_LOOPS = false) ∧
    (hasProp b.MultiGraph.SimpleGraph.Props G_SIMPLE = true ∧
     hasProp b.MultiGraph.SimpleGraph.Props G_PARALLEL = false ∧
     hasProp b.MultiGraph.SimpleGraph.Props G_LOOPS = false) ∧
    (hasProp b.Weighted.Labeled.Props G_LABELED = true ∧
     hasProp b.Weighted.Labeled.Props G_WEIGHTED = true) ∧
    (hasProp b.Loop.Parallel.Props G_PARALLEL = true ∧
     hasProp b.Loop.Parallel.Props G_LOOPS = true) := by
  simp only [GraphSpec.Undirected, GraphSpec.Directed, GraphSpec.Basic,
    GraphSpec.Labeled, GraphSpec.Weighted, GraphSpec.DataEdges,
    GraphSpec.SimpleGraph, GraphSpec.MultiGraph, GraphSpec.Mutable,
    GraphSpec.Immutable, GraphSpec.Loop, GraphSpec.Parallel, andNot,
    hasProp_undirected, hasProp_directed, hasProp_basic, hasProp_labeled,
    hasProp_weighted, hasProp_data, hasProp_simple, hasProp_loops,
    hasProp_parallel, hasProp_immutable, hasProp_mutable]
  simp +decide [Nat.testBit_lor, Nat.testBit_land, Nat.testBit_xor,
    G_UNDIRECTED, G_DIRECTED, G_BASIC, G_LABELED, G_WEIGHTED, G_DATA,
    G_SIMPLE, G_LOOPS, G_PARALLEL, G_IMMUTABLE, G_MUTABLE, G_PERSISTENT]

/-- C4: a single edge-enumeration pass evaluates, in undirected mode,
exactly the unordered pairs `(u,v)` with `u < v`, each exactly once (one
Bernoulli trial per pair on a full pass), and in directed mode exactly the
ordered pairs with `u ≠ v`; every edge a pass emits is one of its candidate
pairs, so no emitted edge is a loop and no pair is emitted twice. -/
theorem bernoulli_pass_pairs (order : Nat) :
    (∀ u v, (u, v) ∈ edgePairs order ↔ u < v ∧ v < order) ∧
    (edgePairs order).Nodup ∧
    (∀ u v, (u, v) ∈ arcPairs order ↔ u ≠ v ∧ u < order ∧ v < order) ∧
    (arcPairs order).Nodup ∧
    (∀ (t : Nat → Bool) (c : Nat),
      (runCreator (fun _ => false) t (edgePairs order) c).2.1 =
        c + (edgePairs order).length) ∧
    (∀ (t : Nat → Bool) (c : Nat),
      (runCreator (fun _ => false) t (arcPairs order) c).2.1 =
        c + (arcPairs order).length) ∧
    (∀ (ρ : ℚ) (t : Nat → Bool) (f : BaseEdge → Bool) (c : Nat),
      (unstableEachEdge ⟨order, ρ, t, false⟩ f c).1.Nodup ∧
      ∀ e ∈ (unstableEachEdge ⟨order, ρ, t, false⟩ f c).1,
        e.U < e.V ∧ e.V < order) ∧
    (∀ (ρ : ℚ) (t : Nat → Bool) (f : BaseEdge → Bool) (c : Nat),
      (unstableEachEdge ⟨order, ρ, t, true⟩ f c).1.Nodup ∧
      ∀ e ∈ (unstableEachEdge ⟨order, ρ, t, true⟩ f c).1,
        e.U ≠ e.V ∧ e.U < order ∧ e.V < order) := by
  refine ⟨fun u v => mem_edgePairs, nodup_edgePairs order,
    fun u v => mem_arcPairs, nodup_arcPairs order,
    fun t c => runCreator_never_cursor t _ c,
    fun t c => runCreator_never_cursor t _ c, ?_, ?_⟩
  · intro ρ t f c
    refine ⟨runCreator_nodup f t _ c (nodup_edgePairs order), fun e he => ?_⟩
    exact mem_edgePairs.1 (runCreator_mem f t _ c he)
  · intro ρ t f c
    refine ⟨runCreator_nodup f t _ c (nodup_arcPairs order), fun e he => ?_⟩
    exact mem_arcPairs.1 (runCreator_mem f t _ c he)

/-- C9: for every Bernoulli generator (stable or unstable) and every step
function, `EachVertex` and `EachEdge` deliver no further element after the
first element at which the step function returns true (every delivered
element except possibly the last is one the step function rejected), and
within a single call no vertex or edge is delivered twice. -/
theorem enumeration_protocol (g : stableBernoulliGraph)
    (gu : unstableBernoulliGraph) (fv : Nat → Bool) (f : BaseEdge → Bool)
    (c : Nat) :
    (stableEachVertex g fv).Nodup ∧
    (∀ x ∈ (stableEachVertex g fv).dropLast, fv x = false) ∧
    (unstableEachVertex gu fv).Nodup ∧
    (∀ x ∈ (unstableEachVertex gu fv).dropLast, fv x = false) ∧
    (stableEachEdge g f c).2.1.Nodup ∧
    (∀ e ∈ (stableEachEdge g f c).2.1.dropLast, f e = false) ∧
    (unstableEachEdge gu f c).1.Nodup ∧
    (∀ e ∈ (unstableEachEdge gu f c).1.dropLast, f e = false) := by
  obtain ⟨n, ρ, t, d, s, l⟩ := g
  refine ⟨(runSteps_sublist fv _).nodup (List.nodup_range n),
    runSteps_dropLast fv _,
    (runSteps_sublist fv _).nodup (List.nodup_range gu.order),
    runSteps_dropLast fv _, ?_, ?_, ?_, ?_⟩
  · cases l with
    | none =>
      simp only [stableEachEdge]
      cases d
      · exact runCreator_nodup f t _ c (nodup_edgePairs n)
      · exact runCreator_nodup f t _ c (nodup_arcPairs n)
    | some rows =>
      simp only [stableEachEdge]
      refine (runSteps_sublist f _).nodup ?_
      exact (nodup_replayPairs n rows).map fun p q h => by
        cases p; cases q; simpa [BaseEdge.mk.injEq, Prod.ext_iff] using h
  · cases l with
    | none =>
      simp only [stableEachEdge]
      exact runCreator_dropLast f t _ c
    | some rows =>
      simp only [stableEachEdge]
      exact runSteps_dropLast f _
  · simp only [unstableEachEdge]
    cases hd : gu.directed
    · exact runCreator_nodup f gu.trial _ c (nodup_edgePairs gu.order)
    · exact runCreator_nodup f gu.trial _ c (nodup_arcPairs gu.order)
  · simp only [unstableEachEdge]
    exact runCreator_dropLast f gu.trial _ c

/-- C10: for every Bernoulli generator of order `n` (stable, in any internal
state, or unstable), `EachVertex` with a never-terminating step function
delivers exactly the vertices `0, 1, ..., n-1` in strictly increasing
order, independent of `ρ`, the trial stream, directedness and the
materialization state; and `EachEdge` never changes the order. -/
theorem each_vertex_range (n s : Nat) (ρ ρ' : ℚ) (t t' : Nat → Bool)
    (d d' : Bool) (l : Option (List Bool)) (f : BaseEdge → Bool) (c : Nat) :
    stableEachVertex ⟨n, ρ, t, d, s, l⟩ (fun _ => false) = List.range n ∧
    unstableEachVertex ⟨n, ρ', t', d'⟩ (fun _ => false) = List.range n ∧
    List.Pairwise (· < ·) (List.range n) ∧
    (∀ v, v ∈ List.range n ↔ v < n) ∧
    (stableEachEdge ⟨n, ρ, t, d, s, l⟩ f c).1.order = n := by
  refine ⟨runSteps_never _, runSteps_never _, List.pairwise_lt_range n,
    fun v => List.mem_range, ?_⟩
  cases l <;> rfl

/-- C2: on a stable generator in its initial state (no traversal run yet),
`Size()` materializes the edge set — the full creator pass, recorded into
the presence rows — and returns exactly the number of generated edges
(which are pairwise distinct, so the count is the cardinality of the
materialized edge set); every later `EachEdge` leaves the state unchanged
and every later `Size()` returns the same count. -/
theorem stable_size_exact (n : Nat) (ρ : ℚ) (t : Nat → Bool) (d : Bool)
    (c c2 c3 : Nat) (f : BaseEdge → Bool) :
    (stableSize ⟨n, ρ, t, d, 0, none⟩ c).2.1 =
      (runCreator (fun _ => false) t
        (if d then arcPairs n else edgePairs n) c).1.length ∧
    (runCreator (fun _ => false) t
      (if d then arcPairs n else edgePairs n) c).1.Nodup ∧
    (stableSize ⟨n, ρ, t, d, 0, none⟩ c).1.list =
      some (rowsOf n (runCreator (fun _ => false) t
        (if d then arcPairs n else edgePairs n) c).1) ∧
    (stableEachEdge (stableSize ⟨n, ρ, t, d, 0, none⟩ c).1 f c2).1 =
      (stableSize ⟨n, ρ, t, d, 0, none⟩ c).1 ∧
    (stableSize (stableSize ⟨n, ρ, t, d, 0, none⟩ c).1 c3).2.1 =
      (stableSize ⟨n, ρ, t, d, 0, none⟩ c).2.1 := by
  refine ⟨by simp [stableSize, stableEachEdge], ?_, ?_, ?_, ?_⟩
  · cases d
    · exact runCreator_nodup _ t _ c (nodup_edgePairs n)
    · exact runCreator_nodup _ t _ c (nodup_arcPairs n)
  · simp [stableSize, stableEachEdge]
  · simp [stableSize, stableEachEdge]
  · simp [stableSize, stableEachEdge]

/-! ## Concrete witnesses -/

theorem null_graph_trivial_witness :
    NullGraph.Vertices (fun _ : Nat => true) = ([] : List Nat) ∧
    NullGraph.HasVertex (42 : Nat) = false :=
  ⟨null_graph_trivial.1 Nat (fun _ => true),
    null_graph_trivial.2.2.2.2.2.2.2.2.2.1 Nat 42⟩

theorem bernoulli_rho_guard_witness :
    isPanic (BernoulliDistribution 5 (mkRat 1 2) false true (fun _ => true)) = false :=
  (bernoulli_rho_guard 5 (mkRat 1 2) false true (fun _ => true)).2.1.2
    ⟨by decide, by decide⟩

theorem unstable_size_trunc_witness :
    unstableSize ⟨4, mkRat 1 3, fun _ => false, true⟩ =
      goTrunc (((4 * (4 - 1) : Nat) : ℚ) * mkRat 1 3) :=
  unstable_size_trunc 4 (mkRat 1 3) (fun _ => false) true

theorem builder_axis_last_write_witness :
    hasProp (Spec.Directed.Undirected).Props G_UNDIRECTED = true ∧
    hasProp (Spec.Directed.Undirected).Props G_DIRECTED = false :=
  ⟨(builder_axis_last_write Spec).1.1, (builder_axis_last_write Spec).1.2⟩

theorem bernoulli_pass_pairs_witness :
    (edgePairs 3).Nodup ∧ ((0, 1) ∈ edgePairs 3 ↔ 0 < 1 ∧ 1 < 3) :=
  ⟨(bernoulli_pass_pairs 3).2.1, (bernoulli_pass_pairs 3).1 0 1⟩

theorem enumeration_protocol_witness :
    (stableEachVertex ⟨2, mkRat 1 2, fun _ => true, false, 0, none⟩
      (fun x => x == 0)).Nodup ∧
    (stableEachEdge ⟨2, mkRat 1 2, fun _ => true, false, 0, none⟩
      (fun _ => true) 0).2.1.Nodup :=
  ⟨(enumeration_protocol ⟨2, mkRat 1 2, fun _ => true, false, 0, none⟩
      ⟨2, mkRat 1 2, fun _ => true, false⟩ (fun x => x == 0) (fun _ => true) 0).1,
    (enumeration_protocol ⟨2, mkRat 1 2, fun _ => true, false, 0, none⟩
      ⟨2, mkRat 1 2, fun _ => true, false⟩ (fun x => x == 0) (fun _ => true) 0).2.2.2.2.1⟩

theorem each_vertex_range_witness :
    stableEachVertex ⟨3, mkRat 1 2, fun _ => true, true, 0, none⟩
      (fun _ => false) = List.range 3 :=
  (each_vertex_range 3 0 (mkRat 1 2) (mkRat 1 2) (fun _ => true) (fun _ => true)
    true true none (fun _ => false) 0).1

theorem stable_size_exact_witness :
    (stableSize ⟨2, mkRat 1 2, fun _ => true, false, 0, none⟩ 0).2.1 =
      (runCreator (fun _ => false) (fun _ => true)
        (if false then arcPairs 2 else edgePairs 2) 0).1.length :=
  (stable_size_exact 2 (mkRat 1 2) (fun _ => true) false 0 0 0 (fun _ => false)).1
